import Mathlib

/-!
Verification of the I2C master multi-burst transaction engine of
`src/lab2_part3/LaunchPad.c` (functions `I2C_fill_tx_fifo`,
`I2C_mstr_send_internal`, `I2C_mstr_read_internal` and the ten public
facade wrappers), against its natural-language specification.

Shallow embedding conventions:
* Every read of a volatile hardware register is drawn from an oracle
  stream: each polling site of the source gets its own stream indexed by
  the number of reads that site has performed.  The streams are
  unconstrained, so every behaviour of the real hardware is a special
  case of some oracle.
* Register writes and delay calls are recorded in an event trace, so that
  theorems can speak about which registers were programmed and in which
  order.
* The two unbounded busy-wait loops of the source (`while (busy);` style,
  with no timeout) are modelled with an explicit `fuel` bound: a run that
  exhausts the fuel returns `none`, representing divergence of the C
  loop.  The two bounded waits use the source's own countdown
  (`I2C_TIMEOUT_COUNT`) and need no fuel.
* Machine integers are modelled as `Nat`; `uint8_t` data bytes are
  reduced mod 256 where the source masks/casts them.
-/

/-- Result codes, from `LaunchPad.h` lines 250-255. -/
def I2C_SUCCESS : Nat := 0

/-- Result code `I2C_ERR_ARB_LOST` (1). -/
def I2C_ERR_ARB_LOST : Nat := 1

/-- Result code `I2C_ERR_NACK` (2). -/
def I2C_ERR_NACK : Nat := 2

/-- Result code `I2C_FIFO_LOAD_ERROR` (3). -/
def I2C_FIFO_LOAD_ERROR : Nat := 3

/-- Result code `I2C_ERR_TIMEOUT` (4). -/
def I2C_ERR_TIMEOUT : Nat := 4

/-- `#define I2C_TIMEOUT_COUNT (200000UL)`, `LaunchPad.h` line 255. -/
def I2C_TIMEOUT_COUNT : Nat := 200000

/-- The burst-policy argument `i2c_burst_type_t` of the engine. -/
inductive i2c_burst_type_t where
  | I2C_NORMAL
  | I2C_START
  | I2C_CONTINUE
  | I2C_END
deriving DecidableEq

/-- The symbolic content of the value written to the `MCTR` control
register: which of the named TI bit constants are OR-ed in, and the
burst-length field.  The source composes
`ACK | mode | BURSTRUN | ((length << MBLEN_OFS) & MBLEN_MASK)`;
the byte counts used are `uint8_t`, preserved by the field mask. -/
structure MCTR_value where
  ack_enable : Bool
  start_enable : Bool
  stop_enable : Bool
  burstrun_enable : Bool
  mblen : Nat
deriving DecidableEq

/-- The `i2c_transaction_mode` bits chosen by the `switch (i2c_type)`
statements: whether `I2C_MCTR_START_ENABLE` and `I2C_MCTR_STOP_ENABLE`
are included. -/
structure TransactionMode where
  start_enable : Bool
  stop_enable : Bool
deriving DecidableEq

/-- Observable steps of a run: register writes, delays, and stores into
the caller's receive buffer. -/
inductive HwEvent where
  | mfifoctl_set_txflush
  | mfifoctl_clear_txflush
  | mfifoctl_set_rxflush
  | mfifoctl_clear_rxflush
  | write_msa (saddr : Nat) (dir_transmit : Bool)
  | write_mctr (v : MCTR_value)
  | write_mtxdata (b : Nat)
  | delay_usec (n : Nat)
  | buf_store (idx : Nat) (b : Nat)
deriving DecidableEq

/-- The bounded polling loop of the source,
```
timeout = I2C_TIMEOUT_COUNT;
while (flag set) { if (--timeout == 0) return I2C_ERR_TIMEOUT; usec_delay(10); }
```
`flagSet k` is the k-th volatile poll.  Returns `(some j, d)` when the
flag was observed clear at poll `j` after `d` inter-poll delays, and
`(none, d)` when the countdown expired (the C `return I2C_ERR_TIMEOUT`).
The engine always calls this with `I2C_TIMEOUT_COUNT`; a zero budget
cannot occur (in the source `--0` would wrap the unsigned counter). -/
def bounded_wait (flagSet : Nat → Bool) : Nat → Nat → Option Nat × Nat
  | 0, k => if flagSet k then (none, 0) else (some k, 0)
  | 1, k => if flagSet k then (none, 0) else (some k, 0)
  | t + 2, k =>
    if flagSet k then
      let r := bounded_wait flagSet (t + 1) (k + 1)
      (r.1, r.2 + 1)
    else (some k, 0)

/-- An unbounded polling loop of the source (`while (flag set);`, empty
body, no timeout).  `fuel` bounds the modelled run; `none` represents the
C loop never terminating within the modelled horizon. -/
def unbounded_wait (flagSet : Nat → Bool) : Nat → Nat → Option Nat
  | 0, _ => none
  | fuel + 1, k => if flagSet k then unbounded_wait flagSet fuel (k + 1) else some k

/-- Loop body of `I2C_fill_tx_fifo` (`LaunchPad.c` lines 1809-1826),
iterating `n` more bytes starting at index `i` with current
`ret_status = ret`:
```
if ((MFIFOSR & TXFIFOCNT_MASK) == 0) ret_status = 0;
MTXDATA = buffer[i];
```
`tx_free i` is the TXFIFOCNT (free entries) reading of iteration `i`.
In the source `count` is `uint16_t` and `i` is `uint8_t`; every caller
passes a `uint8_t` length, and the embedding models that regime
(no index wrap). -/
def fill_aux (tx_free : Nat → Nat) (buffer : List Nat) : Nat → Nat → Nat → Nat × List HwEvent
  | _i, ret, 0 => (ret, [])
  | i, ret, n + 1 =>
    let ret2 := if tx_free i = 0 then 0 else ret
    let rest := fill_aux tx_free buffer (i + 1) ret2 n
    (rest.1, HwEvent.write_mtxdata (buffer.getD i 0) :: rest.2)

/-- `I2C_fill_tx_fifo` (`LaunchPad.c` lines 1809-1826): returns 1 if all
bytes were written with free space available, 0 if the FIFO reported full
before some byte; every byte is written to `MTXDATA` regardless. -/
def I2C_fill_tx_fifo (tx_free : Nat → Nat) (buffer : List Nat) (count : Nat) :
    Nat × List HwEvent :=
  fill_aux tx_free buffer 0 1 count

/-- The `switch (i2c_type)` of `I2C_mstr_send_internal`
(`LaunchPad.c` lines 1908-1933).  All four `i2c_burst_type_t` values are
covered; the `default` arm of the source is unreachable. -/
def send_transaction_mode : i2c_burst_type_t → TransactionMode
  | .I2C_NORMAL => { start_enable := true, stop_enable := true }
  | .I2C_START => { start_enable := true, stop_enable := false }
  | .I2C_CONTINUE => { start_enable := true, stop_enable := false }
  | .I2C_END => { start_enable := true, stop_enable := true }

/-- The `switch (i2c_type)` of `I2C_mstr_read_internal`
(`LaunchPad.c` lines 2209-2234), textually identical to the send one. -/
def read_transaction_mode : i2c_burst_type_t → TransactionMode
  | .I2C_NORMAL => { start_enable := true, stop_enable := true }
  | .I2C_START => { start_enable := true, stop_enable := false }
  | .I2C_CONTINUE => { start_enable := true, stop_enable := false }
  | .I2C_END => { start_enable := true, stop_enable := true }

/-- Drain loop of `I2C_mstr_read_internal` (`LaunchPad.c` lines
2262-2267), `n` more bytes starting at buffer index `idx`:
```
buffer[idx] = (uint8_t)(MRXDATA & I2C_MRXDATA_VALUE_MASK);
usec_delay(30);
```
`rx_data i` is the `MRXDATA` reading of iteration `i`. -/
def read_drain_aux (rx_data : Nat → Nat) : Nat → Nat → List Nat × List HwEvent
  | _idx, 0 => ([], [])
  | idx, n + 1 =>
    let b := rx_data idx % 256
    let rest := read_drain_aux rx_data (idx + 1) n
    (b :: rest.1, HwEvent.buf_store idx b :: HwEvent.delay_usec 30 :: rest.2)

/-- The whole drain loop: the list of bytes stored into the caller's
buffer, and the trace of stores and 30-microsecond settle delays. -/
def read_drain (rx_data : Nat → Nat) (length : Nat) : List Nat × List HwEvent :=
  read_drain_aux rx_data 0 length

/-- The value the send engine writes to `MCTR` (`LaunchPad.c` lines
1937-1939): `ACK_DISABLE | i2c_transaction_mode | BURSTRUN_ENABLE`
with the burst length in the `MBLEN` field. -/
def send_mctr_value (length : Nat) (i2c_type : i2c_burst_type_t) : MCTR_value :=
  { ack_enable := false
    start_enable := (send_transaction_mode i2c_type).start_enable
    stop_enable := (send_transaction_mode i2c_type).stop_enable
    burstrun_enable := true
    mblen := length }

/-- The value the receive engine writes to `MCTR` (`LaunchPad.c` lines
2238-2240): `ACK_ENABLE | i2c_transaction_mode | BURSTRUN_ENABLE`
with the burst length in the `MBLEN` field. -/
def read_mctr_value (length : Nat) (i2c_type : i2c_burst_type_t) : MCTR_value :=
  { ack_enable := true
    start_enable := (read_transaction_mode i2c_type).start_enable
    stop_enable := (read_transaction_mode i2c_type).stop_enable
    burstrun_enable := true
    mblen := length }

/-- Oracle streams for the polling sites of `I2C_mstr_send_internal`.
`msr_not_idle k`: whether `(MSR & IDLE_MASK) == IDLE_CLEARED` at the k-th
idle poll (true = still not idle).  `tx_flush_not_empty k`: whether
`(MFIFOSR & TXFIFOCNT_MASK) != TXFIFOCNT_MAXIMUM` at the k-th flush poll.
`tx_free k`: the TXFIFOCNT free-entry count read by the k-th fill-loop
iteration.  `msr_busy k`: the BUSY bit at the k-th completion poll.
`msr_arblst`, `msr_err`: the ARBLST and ERR bits at the final status
reads. -/
structure SendOracle where
  msr_not_idle : Nat → Bool
  tx_flush_not_empty : Nat → Bool
  tx_free : Nat → Nat
  msr_busy : Nat → Bool
  msr_arblst : Bool
  msr_err : Bool

/-- Oracle streams for the polling sites of `I2C_mstr_read_internal`.
`rx_cnt k`: the RXFIFOCNT occupancy read by the k-th occupancy poll;
`rx_data k`: the `MRXDATA` value of the k-th drain read. -/
structure ReadOracle where
  msr_not_idle : Nat → Bool
  rx_flush_not_empty : Nat → Bool
  msr_busy : Nat → Bool
  msr_arblst : Bool
  msr_err : Bool
  rx_cnt : Nat → Nat
  rx_data : Nat → Nat

/-- The burst block of `I2C_mstr_send_internal` guarded by
`if (ret_status == I2C_SUCCESS)` at `LaunchPad.c` line 1902: program
`MSA`, derive the transaction mode, program `MCTR`, run the bounded
busy wait (lines 1942-1951, `return I2C_ERR_TIMEOUT` on expiry), then
classify the status flags under the guard at line 1953. -/
def send_burst_phase (o : SendOracle) (slave : Nat) (length : Nat)
    (i2c_type : i2c_burst_type_t) (ret : Nat) (tr : List HwEvent) :
    Option (Nat × List HwEvent) :=
  if ret = I2C_SUCCESS then
    let tr := tr ++ [HwEvent.write_msa slave true,
      HwEvent.write_mctr (send_mctr_value length i2c_type)]
    let w := bounded_wait o.msr_busy I2C_TIMEOUT_COUNT 0
    let tr := tr ++ List.replicate w.2 (HwEvent.delay_usec 10)
    match w.1 with
    | none => some (I2C_ERR_TIMEOUT, tr)
    | some _ =>
      let ret2 :=
        if ret = I2C_SUCCESS then
          if o.msr_arblst then I2C_ERR_ARB_LOST
          else if o.msr_err then I2C_ERR_NACK
          else ret
        else ret
      some (ret2, tr)
  else some (ret, tr)

/-- Lines 1884-1900 of `I2C_mstr_send_internal`: set the TX flush bit,
poll (unbounded) until the FIFO reports empty, clear the flush bit, then
under the `ret_status == I2C_SUCCESS` guard at line 1893 run
`I2C_fill_tx_fifo`, recording `I2C_FIFO_LOAD_ERROR` if it failed;
finally the burst block. -/
def send_fill_phase (o : SendOracle) (slave : Nat) (data : List Nat)
    (length : Nat) (i2c_type : i2c_burst_type_t) (fuel : Nat)
    (ret : Nat) (tr : List HwEvent) : Option (Nat × List HwEvent) :=
  let tr := tr ++ [HwEvent.mfifoctl_set_txflush]
  match unbounded_wait o.tx_flush_not_empty fuel 0 with
  | none => none
  | some _ =>
    let tr := tr ++ [HwEvent.mfifoctl_clear_txflush]
    let step :=
      if ret = I2C_SUCCESS then
        let f := I2C_fill_tx_fifo o.tx_free data length
        ((if f.1 = 0 then I2C_FIFO_LOAD_ERROR else ret), tr ++ f.2)
      else (ret, tr)
    send_burst_phase o slave length i2c_type step.1 step.2

/-- `I2C_mstr_send_internal` (`LaunchPad.c` lines 1861-1969).  The
result is `some (status, trace)`, or `none` when one of the source's
unbounded loops diverges (fuel exhausted).  The idle wait (lines
1868-1881) runs only for `I2C_NORMAL` and returns `I2C_ERR_TIMEOUT`
directly on countdown expiry. -/
def I2C_mstr_send_internal (o : SendOracle) (slave : Nat) (data : List Nat)
    (length : Nat) (i2c_type : i2c_burst_type_t) (fuel : Nat) :
    Option (Nat × List HwEvent) :=
  if i2c_type = i2c_burst_type_t.I2C_NORMAL then
    let w := bounded_wait o.msr_not_idle I2C_TIMEOUT_COUNT 0
    match w.1 with
    | none => some (I2C_ERR_TIMEOUT, List.replicate w.2 (HwEvent.delay_usec 10))
    | some _ =>
      send_fill_phase o slave data length i2c_type fuel I2C_SUCCESS
        (List.replicate w.2 (HwEvent.delay_usec 10))
  else
    send_fill_phase o slave data length i2c_type fuel I2C_SUCCESS []

/-- The burst block of `I2C_mstr_read_internal` guarded by
`if (ret_status == I2C_SUCCESS)` at `LaunchPad.c` line 2203: program
`MSA` (receive direction), derive the mode, program `MCTR` (ACK
enabled), run the UNBOUNDED busy wait of line 2243, classify the status
flags (unguarded, lines 2246-2253), run the unbounded occupancy wait of
lines 2256-2257, and drain into the caller's buffer only when the status
is still `I2C_SUCCESS` (guard at line 2260). -/
def read_burst_phase (o : ReadOracle) (slave : Nat) (length : Nat)
    (i2c_type : i2c_burst_type_t) (fuel : Nat) (ret : Nat) (tr : List HwEvent) :
    Option (Nat × List HwEvent × List Nat) :=
  if ret = I2C_SUCCESS then
    let tr := tr ++ [HwEvent.write_msa slave false,
      HwEvent.write_mctr (read_mctr_value length i2c_type)]
    match unbounded_wait o.msr_busy fuel 0 with
    | none => none
    | some _ =>
      let ret2 :=
        if o.msr_arblst then I2C_ERR_ARB_LOST
        else if o.msr_err then I2C_ERR_NACK
        else ret
      match unbounded_wait (fun k => decide (o.rx_cnt k < length)) fuel 0 with
      | none => none
      | some _ =>
        if ret2 = I2C_SUCCESS then
          let d := read_drain o.rx_data length
          some (ret2, tr ++ d.2, d.1)
        else some (ret2, tr, [])
  else some (ret, tr, [])

/-- Lines 2194-2201 of `I2C_mstr_read_internal`: set the RX flush bit,
poll (unbounded) until the RX FIFO reports empty, clear the flush bit,
then the burst block. -/
def read_flush_phase (o : ReadOracle) (slave : Nat) (length : Nat)
    (i2c_type : i2c_burst_type_t) (fuel : Nat) (ret : Nat) (tr : List HwEvent) :
    Option (Nat × List HwEvent × List Nat) :=
  let tr := tr ++ [HwEvent.mfifoctl_set_rxflush]
  match unbounded_wait o.rx_flush_not_empty fuel 0 with
  | none => none
  | some _ =>
    let tr := tr ++ [HwEvent.mfifoctl_clear_rxflush]
    read_burst_phase o slave length i2c_type fuel ret tr

/-- `I2C_mstr_read_internal` (`LaunchPad.c` lines 2171-2274).  The third
component of the result is the list of bytes stored into the caller's
buffer (empty when the drain loop did not run). -/
def I2C_mstr_read_internal (o : ReadOracle) (slave : Nat) (length : Nat)
    (i2c_type : i2c_burst_type_t) (fuel : Nat) :
    Option (Nat × List HwEvent × List Nat) :=
  if i2c_type = i2c_burst_type_t.I2C_NORMAL then
    let w := bounded_wait o.msr_not_idle I2C_TIMEOUT_COUNT 0
    match w.1 with
    | none => some (I2C_ERR_TIMEOUT, List.replicate w.2 (HwEvent.delay_usec 10), [])
    | some _ =>
      read_flush_phase o slave length i2c_type fuel I2C_SUCCESS
        (List.replicate w.2 (HwEvent.delay_usec 10))
  else
    read_flush_phase o slave length i2c_type fuel I2C_SUCCESS []

/-- `I2C_mstr_send1` (`LaunchPad.c` lines 1997-2000). -/
def I2C_mstr_send1 (o : SendOracle) (slave : Nat) (data : Nat) (fuel : Nat) :
    Option (Nat × List HwEvent) :=
  I2C_mstr_send_internal o slave [data] 1 i2c_burst_type_t.I2C_NORMAL fuel

/-- `I2C_mstr_send`. -/
def I2C_mstr_send (o : SendOracle) (slave : Nat) (data : List Nat)
    (length : Nat) (fuel : Nat) : Option (Nat × List HwEvent) :=
  I2C_mstr_send_internal o slave data length i2c_burst_type_t.I2C_NORMAL fuel

/-- `I2C_mstr_send_start`. -/
def I2C_mstr_send_start (o : SendOracle) (slave : Nat) (data : List Nat)
    (length : Nat) (fuel : Nat) : Option (Nat × List HwEvent) :=
  I2C_mstr_send_internal o slave data length i2c_burst_type_t.I2C_START fuel

/-- `I2C_mstr_send_continue`. -/
def I2C_mstr_send_continue (o : SendOracle) (slave : Nat) (data : List Nat)
    (length : Nat) (fuel : Nat) : Option (Nat × List HwEvent) :=
  I2C_mstr_send_internal o slave data length i2c_burst_type_t.I2C_CONTINUE fuel

/-- `I2C_mstr_send_end`. -/
def I2C_mstr_send_end (o : SendOracle) (slave : Nat) (data : List Nat)
    (length : Nat) (fuel : Nat) : Option (Nat × List HwEvent) :=
  I2C_mstr_send_internal o slave data length i2c_burst_type_t.I2C_END fuel

/-- `I2C_mstr_read1` (`LaunchPad.c` lines 2297-2300). -/
def I2C_mstr_read1 (o : ReadOracle) (slave : Nat) (fuel : Nat) :
    Option (Nat × List HwEvent × List Nat) :=
  I2C_mstr_read_internal o slave 1 i2c_burst_type_t.I2C_NORMAL fuel

/-- `I2C_mstr_read`. -/
def I2C_mstr_read (o : ReadOracle) (slave : Nat) (length : Nat) (fuel : Nat) :
    Option (Nat × List HwEvent × List Nat) :=
  I2C_mstr_read_internal o slave length i2c_burst_type_t.I2C_NORMAL fuel

/-- `I2C_mstr_read_start`. -/
def I2C_mstr_read_start (o : ReadOracle) (slave : Nat) (length : Nat) (fuel : Nat) :
    Option (Nat × List HwEvent × List Nat) :=
  I2C_mstr_read_internal o slave length i2c_burst_type_t.I2C_START fuel

/-- `I2C_mstr_read_continue`. -/
def I2C_mstr_read_continue (o : ReadOracle) (slave : Nat) (length : Nat) (fuel : Nat) :
    Option (Nat × List HwEvent × List Nat) :=
  I2C_mstr_read_internal o slave length i2c_burst_type_t.I2C_CONTINUE fuel

/-- `I2C_mstr_read_end`. -/
def I2C_mstr_read_end (o : ReadOracle) (slave : Nat) (length : Nat) (fuel : Nat) :
    Option (Nat × List HwEvent × List Nat) :=
  I2C_mstr_read_internal o slave length i2c_burst_type_t.I2C_END fuel

/-- A fully cooperative bus for the send engine, except that the TX FIFO
always reports full (free count 0) and both error flags are set. -/
def send_oracle_fifo_full : SendOracle :=
  { msr_not_idle := fun _ => false
    tx_flush_not_empty := fun _ => false
    tx_free := fun _ => 0
    msr_busy := fun _ => false
    msr_arblst := true
    msr_err := true }

/-- A cooperative bus whose busy flag never clears after the burst is
triggered. -/
def send_oracle_busy_forever : SendOracle :=
  { msr_not_idle := fun _ => false
    tx_flush_not_empty := fun _ => false
    tx_free := fun _ => 8
    msr_busy := fun _ => true
    msr_arblst := false
    msr_err := false }

/-- A bus that never reports idle. -/
def send_oracle_never_idle : SendOracle :=
  { msr_not_idle := fun _ => true
    tx_flush_not_empty := fun _ => false
    tx_free := fun _ => 8
    msr_busy := fun _ => false
    msr_arblst := false
    msr_err := false }

/-- A cooperative bus with both the arbitration-lost and the error/no-ack
flag set after the burst. -/
def send_oracle_both_flags : SendOracle :=
  { msr_not_idle := fun _ => false
    tx_flush_not_empty := fun _ => false
    tx_free := fun _ => 8
    msr_busy := fun _ => false
    msr_arblst := true
    msr_err := true }

/-- A cooperative bus whose TX FIFO behaves as an 8-entry queue flushed
empty beforehand: the i-th fill iteration reads `8 - i` free entries. -/
def send_oracle_flushed_queue : SendOracle :=
  { msr_not_idle := fun _ => false
    tx_flush_not_empty := fun _ => false
    tx_free := fun i => 8 - i
    msr_busy := fun _ => false
    msr_arblst := false
    msr_err := false }

/-- A fully cooperative bus for the receive engine: 8 bytes pending in
the RX queue, data bytes 65, 66, 67,... -/
def read_oracle_ok : ReadOracle :=
  { msr_not_idle := fun _ => false
    rx_flush_not_empty := fun _ => false
    msr_busy := fun _ => false
    msr_arblst := false
    msr_err := false
    rx_cnt := fun _ => 8
    rx_data := fun i => 65 + i }

/-- The cooperative receive bus with both error flags set. -/
def read_oracle_both_flags : ReadOracle :=
  { read_oracle_ok with msr_arblst := true, msr_err := true }

/-- A receive bus that never reports idle. -/
def read_oracle_never_idle : ReadOracle :=
  { read_oracle_ok with msr_not_idle := fun _ => true }

/-- If the polled flag is clear at the very first poll, the bounded wait
exits immediately with no delays. -/
theorem bounded_wait_clear_first (f : Nat → Bool) (t k : Nat) (h : f k = false) :
    bounded_wait f t k = (some k, 0) := by
  rcases t with _ | _ | t <;> simp [bounded_wait, h]

/-- If the flag stays set for the whole budget, the bounded wait expires:
after `t` polls (the source's countdown) it reports the timeout, having
performed `t - 1` inter-poll delays. -/
theorem bounded_wait_all_set (f : Nat → Bool) :
    ∀ t, 1 ≤ t → ∀ k, (∀ j, j < t → f (k + j) = true) →
      bounded_wait f t k = (none, t - 1) := by
  intro t
  induction t with
  | zero => intro h; exact absurd h (by omega)
  | succ t ih =>
    intro _ k hall
    match t with
    | 0 =>
      have h0 : f k = true := by simpa using hall 0 (by omega)
      simp [bounded_wait, h0]
    | t + 1 =>
      have h0 : f k = true := by simpa using hall 0 (by omega)
      have hrec := ih (by omega) (k + 1) (fun j hj => by
        have := hall (j + 1) (by omega)
        simpa [Nat.add_assoc, Nat.add_comm 1 j] using this)
      simp [bounded_wait, h0, hrec]

/-- Conversely, a timeout exit means every poll within the budget saw the
flag set: the wait cannot expire early. -/
theorem bounded_wait_none_all_set (f : Nat → Bool) :
    ∀ t k, (bounded_wait f t k).1 = none → ∀ j, j < t → f (k + j) = true := by
  intro t
  induction t using Nat.strong_induction_on with
  | _ t ih =>
    intro k hnone j hj
    match t, hj with
    | 1, hj =>
      have h0 : j = 0 := by omega
      subst h0
      by_cases hf : f k
      · simpa using hf
      · simp [bounded_wait, hf] at hnone
    | t + 2, hj =>
      by_cases hf : f k
      · match j with
        | 0 => simpa using hf
        | j + 1 =>
          have hrec : (bounded_wait f (t + 1) (k + 1)).1 = none := by
            simpa [bounded_wait, hf] using hnone
          have := ih (t + 1) (by omega) (k + 1) hrec j (by omega)
          simpa [Nat.add_assoc, Nat.add_comm 1 j] using this
      · simp [bounded_wait, eq_false_of_ne_true hf] at hnone

/-- A successful unbounded wait exits exactly at a poll where the flag
was observed clear. -/
theorem unbounded_wait_some (f : Nat → Bool) :
    ∀ fuel k j, unbounded_wait f fuel k = some j → f j = false := by
  intro fuel
  induction fuel with
  | zero => intro k j h; simp [unbounded_wait] at h
  | succ fuel ih =>
    intro k j h
    by_cases hf : f k
    · rw [unbounded_wait, if_pos hf] at h
      exact ih _ _ h
    · rw [unbounded_wait, if_neg hf] at h
      cases h
      exact eq_false_of_ne_true hf

/-- If the flag is clear at the first poll, the unbounded wait exits
immediately (any positive fuel). -/
theorem unbounded_wait_clear_first (f : Nat → Bool) (fuel k : Nat) (h : f k = false) :
    unbounded_wait f (fuel + 1) k = some k := by
  simp [unbounded_wait, h]

/-- The FIFO-load loop reports failure exactly when its running status
was already failed or some iteration read a zero free count. -/
theorem fill_aux_fst_eq_zero_iff (f : Nat → Nat) (b : List Nat) :
    ∀ n i ret, ((fill_aux f b i ret n).1 = 0 ↔ ret = 0 ∨ ∃ j, j < n ∧ f (i + j) = 0) := by
  intro n
  induction n with
  | zero => intro i ret; simp [fill_aux]
  | succ n ih =>
    intro i ret
    by_cases hf : f i = 0
    · simp only [fill_aux, hf, if_pos]
      rw [ih (i + 1) 0]
      constructor
      · intro _; right; exact ⟨0, by omega, by simpa using hf⟩
      · intro _; left; rfl
    · simp only [fill_aux, hf, if_neg, ite_false]
      rw [ih (i + 1) ret]
      constructor
      · rintro (hr | ⟨j, hj, hfj⟩)
        · exact Or.inl hr
        · exact Or.inr ⟨j + 1, by omega, by
            have : i + 1 + j = i + (j + 1) := by omega
            rwa [this] at hfj⟩
      · rintro (hr | ⟨j, hj, hfj⟩)
        · exact Or.inl hr
        · match j with
          | 0 => exact absurd (by simpa using hfj) hf
          | j + 1 =>
            refine Or.inr ⟨j, by omega, ?_⟩
            have : i + 1 + j = i + (j + 1) := by omega
            rwa [this]

/-- The FIFO-load loop writes exactly its `count` bytes to `MTXDATA`, in
order, regardless of the full flag. -/
theorem fill_aux_snd (f : Nat → Nat) (b : List Nat) :
    ∀ n i ret, (fill_aux f b i ret n).2
      = (List.range n).map (fun j => HwEvent.write_mtxdata (b.getD (i + j) 0)) := by
  intro n
  induction n with
  | zero => intro i ret; simp [fill_aux]
  | succ n ih =>
    intro i ret
    simp only [fill_aux, ih]
    rw [List.range_succ_eq_map]
    simp only [List.map_cons, List.map_map, Nat.add_zero]
    congr 1
    apply List.map_congr_left
    intro j _
    simp only [Function.comp_apply, Nat.succ_eq_add_one]
    have h : i + 1 + j = i + (j + 1) := by omega
    rw [h]

/-- `I2C_fill_tx_fifo` fails exactly when the queue reported full before
some byte of the request. -/
theorem I2C_fill_tx_fifo_fst_eq_zero_iff (f : Nat → Nat) (b : List Nat) (n : Nat) :
    ((I2C_fill_tx_fifo f b n).1 = 0 ↔ ∃ j, j < n ∧ f j = 0) := by
  rw [I2C_fill_tx_fifo, fill_aux_fst_eq_zero_iff]
  simp

/-- `I2C_fill_tx_fifo` writes every requested byte to `MTXDATA`. -/
theorem I2C_fill_tx_fifo_snd (f : Nat → Nat) (b : List Nat) (n : Nat) :
    (I2C_fill_tx_fifo f b n).2
      = (List.range n).map (fun j => HwEvent.write_mtxdata (b.getD j 0)) := by
  rw [I2C_fill_tx_fifo, fill_aux_snd]
  simp

/-- The drain loop stores exactly the masked `MRXDATA` readings, in
order. -/
theorem read_drain_aux_fst (f : Nat → Nat) :
    ∀ n idx, (read_drain_aux f idx n).1
      = (List.range n).map (fun j => f (idx + j) % 256) := by
  intro n
  induction n with
  | zero => intro idx; simp [read_drain_aux]
  | succ n ih =>
    intro idx
    simp only [read_drain_aux, ih]
    rw [List.range_succ_eq_map]
    simp only [List.map_cons, List.map_map, Nat.add_zero]
    congr 1
    apply List.map_congr_left
    intro j _
    simp only [Function.comp_apply, Nat.succ_eq_add_one]
    have h : idx + 1 + j = idx + (j + 1) := by omega
    rw [h]

/-- The drain-loop trace: for each byte, the store into the caller's
buffer immediately followed by the fixed 30-microsecond settle delay. -/
theorem read_drain_aux_snd (f : Nat → Nat) :
    ∀ n idx, (read_drain_aux f idx n).2
      = ((List.range n).map (fun j =>
          [HwEvent.buf_store (idx + j) (f (idx + j) % 256),
           HwEvent.delay_usec 30])).flatten := by
  intro n
  induction n with
  | zero => intro idx; simp [read_drain_aux]
  | succ n ih =>
    intro idx
    simp only [read_drain_aux, ih]
    rw [List.range_succ_eq_map]
    simp only [List.map_cons, List.map_map, List.flatten_cons, Nat.add_zero,
      List.cons_append, List.nil_append]
    congr 3
    apply List.map_congr_left
    intro j _
    simp only [Function.comp_apply, Nat.succ_eq_add_one]
    have h : idx + 1 + j = idx + (j + 1) := by omega
    rw [h]

/-- When the running status is already an error, the send burst block is
skipped entirely and the status is returned as-is: no further register
writes, no busy wait, no flag inspection. -/
theorem send_burst_phase_skip (o : SendOracle) (slave length : Nat)
    (i2c_type : i2c_burst_type_t) (ret : Nat) (tr : List HwEvent)
    (h : ret ≠ I2C_SUCCESS) :
    send_burst_phase o slave length i2c_type ret tr = some (ret, tr) := by
  simp [send_burst_phase, h]

/-- Full characterization of the send path when the FIFO load succeeds
and neither wait diverges or expires: the engine flushes, fills,
programs `MSA` and `MCTR`, waits, and classifies the status flags with
arbitration-lost taking priority over the error/no-ack flag, which takes
priority over success. -/
theorem send_fill_phase_classify (o : SendOracle) (slave : Nat) (data : List Nat)
    (length : Nat) (i2c_type : i2c_burst_type_t) (fuel : Nat) (tr0 : List HwEvent)
    (hflush : unbounded_wait o.tx_flush_not_empty fuel 0 ≠ none)
    (hfill : (I2C_fill_tx_fifo o.tx_free data length).1 ≠ 0)
    (hbusy : (bounded_wait o.msr_busy I2C_TIMEOUT_COUNT 0).1 ≠ none) :
    send_fill_phase o slave data length i2c_type fuel I2C_SUCCESS tr0
      = some ((if o.msr_arblst then I2C_ERR_ARB_LOST
               else if o.msr_err then I2C_ERR_NACK
               else I2C_SUCCESS),
          tr0 ++ [HwEvent.mfifoctl_set_txflush, HwEvent.mfifoctl_clear_txflush]
            ++ (I2C_fill_tx_fifo o.tx_free data length).2
            ++ [HwEvent.write_msa slave true,
                HwEvent.write_mctr (send_mctr_value length i2c_type)]
            ++ List.replicate (bounded_wait o.msr_busy I2C_TIMEOUT_COUNT 0).2
                 (HwEvent.delay_usec 10)) := by
  obtain ⟨m, hm⟩ := Option.ne_none_iff_exists.mp hflush
  obtain ⟨j, hj⟩ := Option.ne_none_iff_exists.mp hbusy
  unfold send_fill_phase
  rw [← hm]
  simp only [send_burst_phase, if_pos rfl, if_neg hfill, ← hj]
  simp [List.append_assoc]

/-- When the FIFO load succeeds but the post-trigger busy wait expires,
the send engine returns `I2C_ERR_TIMEOUT` from its bounded completion
wait (`LaunchPad.c` lines 1942-1951). -/
theorem send_fill_phase_busy_timeout (o : SendOracle) (slave : Nat) (data : List Nat)
    (length : Nat) (i2c_type : i2c_burst_type_t) (fuel : Nat) (tr0 : List HwEvent)
    (hflush : unbounded_wait o.tx_flush_not_empty fuel 0 ≠ none)
    (hfill : (I2C_fill_tx_fifo o.tx_free data length).1 ≠ 0)
    (hbusy : (bounded_wait o.msr_busy I2C_TIMEOUT_COUNT 0).1 = none) :
    send_fill_phase o slave data length i2c_type fuel I2C_SUCCESS tr0
      = some (I2C_ERR_TIMEOUT,
          tr0 ++ [HwEvent.mfifoctl_set_txflush, HwEvent.mfifoctl_clear_txflush]
            ++ (I2C_fill_tx_fifo o.tx_free data length).2
            ++ [HwEvent.write_msa slave true,
                HwEvent.write_mctr (send_mctr_value length i2c_type)]
            ++ List.replicate (bounded_wait o.msr_busy I2C_TIMEOUT_COUNT 0).2
                 (HwEvent.delay_usec 10)) := by
  obtain ⟨m, hm⟩ := Option.ne_none_iff_exists.mp hflush
  unfold send_fill_phase
  rw [← hm]
  simp only [send_burst_phase, if_pos rfl, if_neg hfill, hbusy]
  simp [List.append_assoc]

/-- When the FIFO load fails, the send engine skips the whole burst
block: the returned status is `I2C_FIFO_LOAD_ERROR` regardless of the
status flags, and the trace ends right after the fill, with no `MSA` or
`MCTR` programming and no busy wait. -/
theorem send_fill_phase_fifo_error (o : SendOracle) (slave : Nat) (data : List Nat)
    (length : Nat) (i2c_type : i2c_burst_type_t) (fuel : Nat) (tr0 : List HwEvent)
    (hflush : unbounded_wait o.tx_flush_not_empty fuel 0 ≠ none)
    (hfill : (I2C_fill_tx_fifo o.tx_free data length).1 = 0) :
    send_fill_phase o slave data length i2c_type fuel I2C_SUCCESS tr0
      = some (I2C_FIFO_LOAD_ERROR,
          tr0 ++ [HwEvent.mfifoctl_set_txflush, HwEvent.mfifoctl_clear_txflush]
            ++ (I2C_fill_tx_fifo o.tx_free data length).2) := by
  obtain ⟨m, hm⟩ := Option.ne_none_iff_exists.mp hflush
  unfold send_fill_phase
  rw [← hm]
  have hskip : (I2C_FIFO_LOAD_ERROR : Nat) ≠ I2C_SUCCESS := by
    simp [I2C_FIFO_LOAD_ERROR, I2C_SUCCESS]
  simp only [if_pos rfl, hfill, ite_true]
  rw [send_burst_phase_skip _ _ _ _ _ _ hskip]
  simp [List.append_assoc]


/-- Full characterization of every completed receive run past the idle
wait: the status is classified with arbitration-lost over no-ack over
success; the occupancy wait exited, so some poll saw the receive queue
hold at least `length` bytes (this holds even for failed statuses); the
caller's buffer is written exactly when the status is success, in which
case the drained bytes and the drain trace are appended. -/
theorem read_flush_phase_spec (o : ReadOracle) (slave length : Nat)
    (i2c_type : i2c_burst_type_t) (fuel : Nat) (tr0 : List HwEvent)
    (st : Nat) (tr : List HwEvent) (buf : List Nat)
    (h : read_flush_phase o slave length i2c_type fuel I2C_SUCCESS tr0
          = some (st, tr, buf)) :
    st = (if o.msr_arblst then I2C_ERR_ARB_LOST
          else if o.msr_err then I2C_ERR_NACK
          else I2C_SUCCESS)
    ∧ (∃ j, length ≤ o.rx_cnt j)
    ∧ (st = I2C_SUCCESS →
        buf = (read_drain o.rx_data length).1
        ∧ tr = tr0 ++ [HwEvent.mfifoctl_set_rxflush, HwEvent.mfifoctl_clear_rxflush,
            HwEvent.write_msa slave false,
            HwEvent.write_mctr (read_mctr_value length i2c_type)]
            ++ (read_drain o.rx_data length).2)
    ∧ (st ≠ I2C_SUCCESS →
        buf = []
        ∧ tr = tr0 ++ [HwEvent.mfifoctl_set_rxflush, HwEvent.mfifoctl_clear_rxflush,
            HwEvent.write_msa slave false,
            HwEvent.write_mctr (read_mctr_value length i2c_type)]) := by
  unfold read_flush_phase read_burst_phase at h
  rcases hfl : unbounded_wait o.rx_flush_not_empty fuel 0 with _ | m
  · rw [hfl] at h; simp at h
  rw [hfl] at h
  rcases hb : unbounded_wait o.msr_busy fuel 0 with _ | jb
  · rw [hb] at h; simp at h
  rw [hb] at h
  rcases hc : unbounded_wait (fun k => decide (o.rx_cnt k < length)) fuel 0 with _ | jc
  · rw [hc] at h; simp at h
  rw [hc] at h
  have hocc : ∃ j, length ≤ o.rx_cnt j := by
    have := unbounded_wait_some _ _ _ _ hc
    exact ⟨jc, by simpa using this⟩
  rcases harb : o.msr_arblst with _ | _
  · rcases herr : o.msr_err with _ | _
    · simp only [harb, herr, Bool.false_eq_true, if_false, if_pos rfl,
        Option.some.injEq, Prod.mk.injEq] at h
      obtain ⟨rfl, rfl, rfl⟩ := h
      refine ⟨by simp [harb, herr], hocc, fun _ => ⟨rfl, by simp [List.append_assoc]⟩,
        fun hne => absurd rfl hne⟩
    · have hne : I2C_ERR_NACK ≠ I2C_SUCCESS := by simp [I2C_ERR_NACK, I2C_SUCCESS]
      simp only [harb, herr, Bool.false_eq_true, if_false, if_true, if_neg hne,
        Option.some.injEq, Prod.mk.injEq] at h
      obtain ⟨rfl, rfl, rfl⟩ := h
      refine ⟨by simp [harb, herr], hocc, fun hsucc => absurd hsucc hne,
        fun _ => ⟨rfl, by simp [List.append_assoc]⟩⟩
  · have hne : I2C_ERR_ARB_LOST ≠ I2C_SUCCESS := by
      simp [I2C_ERR_ARB_LOST, I2C_SUCCESS]
    simp only [harb, if_true, if_neg hne,
      Option.some.injEq, Prod.mk.injEq] at h
    obtain ⟨rfl, rfl, rfl⟩ := h
    refine ⟨by simp [harb], hocc, fun hsucc => absurd hsucc hne,
      fun _ => ⟨rfl, by simp [List.append_assoc]⟩⟩
/-- The idle-wait prefix of a send run: when the policy is `I2C_NORMAL`
and the idle wait does not expire, the engine continues into the flush
and fill phase carrying the idle-wait delays; for the other three
policies the idle wait is not executed at all. -/
theorem send_internal_eq_fill_phase (o : SendOracle) (slave : Nat) (data : List Nat)
    (length : Nat) (i2c_type : i2c_burst_type_t) (fuel : Nat)
    (hidle : i2c_type = i2c_burst_type_t.I2C_NORMAL →
      (bounded_wait o.msr_not_idle I2C_TIMEOUT_COUNT 0).1 ≠ none) :
    I2C_mstr_send_internal o slave data length i2c_type fuel
      = send_fill_phase o slave data length i2c_type fuel I2C_SUCCESS
          (if i2c_type = i2c_burst_type_t.I2C_NORMAL then
            List.replicate (bounded_wait o.msr_not_idle I2C_TIMEOUT_COUNT 0).2
              (HwEvent.delay_usec 10)
          else []) := by
  by_cases hty : i2c_type = i2c_burst_type_t.I2C_NORMAL
  · obtain ⟨j, hj⟩ := Option.ne_none_iff_exists.mp (hidle hty)
    simp [I2C_mstr_send_internal, hty, ← hj]
  · simp [I2C_mstr_send_internal, hty]

/-- When the policy is `I2C_NORMAL` and the idle wait expires, the send
engine returns `I2C_ERR_TIMEOUT` immediately; the trace holds only the
inter-poll delays of the idle wait. -/
theorem send_internal_idle_timeout (o : SendOracle) (slave : Nat) (data : List Nat)
    (length : Nat) (fuel : Nat)
    (hidle : (bounded_wait o.msr_not_idle I2C_TIMEOUT_COUNT 0).1 = none) :
    I2C_mstr_send_internal o slave data length i2c_burst_type_t.I2C_NORMAL fuel
      = some (I2C_ERR_TIMEOUT,
          List.replicate (bounded_wait o.msr_not_idle I2C_TIMEOUT_COUNT 0).2
            (HwEvent.delay_usec 10)) := by
  simp [I2C_mstr_send_internal, hidle]

/-- The idle-wait prefix of a receive run, exactly as for send. -/
theorem read_internal_eq_flush_phase (o : ReadOracle) (slave length : Nat)
    (i2c_type : i2c_burst_type_t) (fuel : Nat)
    (hidle : i2c_type = i2c_burst_type_t.I2C_NORMAL →
      (bounded_wait o.msr_not_idle I2C_TIMEOUT_COUNT 0).1 ≠ none) :
    I2C_mstr_read_internal o slave length i2c_type fuel
      = read_flush_phase o slave length i2c_type fuel I2C_SUCCESS
          (if i2c_type = i2c_burst_type_t.I2C_NORMAL then
            List.replicate (bounded_wait o.msr_not_idle I2C_TIMEOUT_COUNT 0).2
              (HwEvent.delay_usec 10)
          else []) := by
  by_cases hty : i2c_type = i2c_burst_type_t.I2C_NORMAL
  · obtain ⟨j, hj⟩ := Option.ne_none_iff_exists.mp (hidle hty)
    simp [I2C_mstr_read_internal, hty, ← hj]
  · simp [I2C_mstr_read_internal, hty]

/-- When the policy is `I2C_NORMAL` and the idle wait expires, the
receive engine returns `I2C_ERR_TIMEOUT` immediately with an empty
output buffer. -/
theorem read_internal_idle_timeout (o : ReadOracle) (slave length : Nat) (fuel : Nat)
    (hidle : (bounded_wait o.msr_not_idle I2C_TIMEOUT_COUNT 0).1 = none) :
    I2C_mstr_read_internal o slave length i2c_burst_type_t.I2C_NORMAL fuel
      = some (I2C_ERR_TIMEOUT,
          List.replicate (bounded_wait o.msr_not_idle I2C_TIMEOUT_COUNT 0).2
            (HwEvent.delay_usec 10), []) := by
  simp [I2C_mstr_read_internal, hidle]

/-- The status classification value can never be the timeout code. -/
theorem classify_ne_timeout (arb err : Bool) :
    (if arb then I2C_ERR_ARB_LOST else if err then I2C_ERR_NACK else I2C_SUCCESS)
      ≠ I2C_ERR_TIMEOUT := by
  rcases arb <;> rcases err <;>
    simp [I2C_ERR_ARB_LOST, I2C_ERR_NACK, I2C_SUCCESS, I2C_ERR_TIMEOUT]
/-- C1: for every policy in {Normal, Start, Continue, End} and for both
the send and the receive engine, the `MCTR` control word programmed for
the burst asserts the STOP bit iff the policy is Normal or End, and
asserts the START bit for every one of the four policies. -/
theorem C1_control_word_start_stop :
    ∀ (ty : i2c_burst_type_t) (length : Nat),
      ((send_mctr_value length ty).start_enable = true
        ∧ (read_mctr_value length ty).start_enable = true)
      ∧ ((send_mctr_value length ty).stop_enable = true ↔
          (ty = i2c_burst_type_t.I2C_NORMAL ∨ ty = i2c_burst_type_t.I2C_END))
      ∧ ((read_mctr_value length ty).stop_enable = true ↔
          (ty = i2c_burst_type_t.I2C_NORMAL ∨ ty = i2c_burst_type_t.I2C_END)) := by
  intro ty length
  rcases ty <;>
    simp [send_mctr_value, read_mctr_value, send_transaction_mode, read_transaction_mode]

/-- C8: the ten public entry points are pure delegation to the two
internal engines with the policies Normal/Normal/Start/Continue/End
(send1 with length 1) and no additional logic. -/
theorem C8_facade_delegation :
    ∀ (o : SendOracle) (ro : ReadOracle) (slave b : Nat) (data : List Nat)
      (length fuel : Nat),
      I2C_mstr_send1 o slave b fuel
          = I2C_mstr_send_internal o slave [b] 1 i2c_burst_type_t.I2C_NORMAL fuel
      ∧ I2C_mstr_send o slave data length fuel
          = I2C_mstr_send_internal o slave data length i2c_burst_type_t.I2C_NORMAL fuel
      ∧ I2C_mstr_send_start o slave data length fuel
          = I2C_mstr_send_internal o slave data length i2c_burst_type_t.I2C_START fuel
      ∧ I2C_mstr_send_continue o slave data length fuel
          = I2C_mstr_send_internal o slave data length i2c_burst_type_t.I2C_CONTINUE fuel
      ∧ I2C_mstr_send_end o slave data length fuel
          = I2C_mstr_send_internal o slave data length i2c_burst_type_t.I2C_END fuel
      ∧ I2C_mstr_read1 ro slave fuel
          = I2C_mstr_read_internal ro slave 1 i2c_burst_type_t.I2C_NORMAL fuel
      ∧ I2C_mstr_read ro slave length fuel
          = I2C_mstr_read_internal ro slave length i2c_burst_type_t.I2C_NORMAL fuel
      ∧ I2C_mstr_read_start ro slave length fuel
          = I2C_mstr_read_internal ro slave length i2c_burst_type_t.I2C_START fuel
      ∧ I2C_mstr_read_continue ro slave length fuel
          = I2C_mstr_read_internal ro slave length i2c_burst_type_t.I2C_CONTINUE fuel
      ∧ I2C_mstr_read_end ro slave length fuel
          = I2C_mstr_read_internal ro slave length i2c_burst_type_t.I2C_END fuel := by
  intro o ro slave b data length fuel
  exact ⟨rfl, rfl, rfl, rfl, rfl, rfl, rfl, rfl, rfl, rfl⟩
/-- C4: the pre-transaction idle wait runs iff the policy is Normal.
Part (a): the idle wait expires iff all `I2C_TIMEOUT_COUNT` = 200,000
polls saw the bus not idle — no early or late return.  Parts (b), (c):
with a bus that never reports idle, a Normal-policy send or receive
returns `I2C_ERR_TIMEOUT` and its trace holds nothing but the 199,999
fixed 10-microsecond inter-poll delays — no register writes before
returning.  Parts (d), (e): for the other three policies the idle-poll
stream is never consulted, so the run is unchanged under any
replacement of it. -/
theorem C4_idle_wait_iff_normal (o : SendOracle) (ro : ReadOracle) (slave : Nat)
    (data : List Nat) (length fuel : Nat) :
    ((bounded_wait o.msr_not_idle I2C_TIMEOUT_COUNT 0).1 = none ↔
      ∀ j, j < I2C_TIMEOUT_COUNT → o.msr_not_idle j = true)
    ∧ ((∀ j, j < I2C_TIMEOUT_COUNT → o.msr_not_idle j = true) →
        I2C_mstr_send_internal o slave data length i2c_burst_type_t.I2C_NORMAL fuel
          = some (I2C_ERR_TIMEOUT,
              List.replicate (I2C_TIMEOUT_COUNT - 1) (HwEvent.delay_usec 10)))
    ∧ ((∀ j, j < I2C_TIMEOUT_COUNT → ro.msr_not_idle j = true) →
        I2C_mstr_read_internal ro slave length i2c_burst_type_t.I2C_NORMAL fuel
          = some (I2C_ERR_TIMEOUT,
              List.replicate (I2C_TIMEOUT_COUNT - 1) (HwEvent.delay_usec 10), []))
    ∧ (∀ (f : Nat → Bool) (ty : i2c_burst_type_t), ty ≠ i2c_burst_type_t.I2C_NORMAL →
        I2C_mstr_send_internal { o with msr_not_idle := f } slave data length ty fuel
          = I2C_mstr_send_internal o slave data length ty fuel)
    ∧ (∀ (f : Nat → Bool) (ty : i2c_burst_type_t), ty ≠ i2c_burst_type_t.I2C_NORMAL →
        I2C_mstr_read_internal { ro with msr_not_idle := f } slave length ty fuel
          = I2C_mstr_read_internal ro slave length ty fuel) := by
  have hpos : 1 ≤ I2C_TIMEOUT_COUNT := by norm_num [I2C_TIMEOUT_COUNT]
  refine ⟨⟨fun hnone j hj => ?_, fun hall => ?_⟩, fun hall => ?_, fun hall => ?_,
    fun f ty hty => ?_, fun f ty hty => ?_⟩
  · simpa using bounded_wait_none_all_set o.msr_not_idle I2C_TIMEOUT_COUNT 0 hnone j hj
  · rw [bounded_wait_all_set o.msr_not_idle I2C_TIMEOUT_COUNT hpos 0
      (fun j hj => by simpa using hall j hj)]
  · have hw := bounded_wait_all_set o.msr_not_idle I2C_TIMEOUT_COUNT hpos 0
      (fun j hj => by simpa using hall j hj)
    rw [send_internal_idle_timeout o slave data length fuel (by rw [hw]), hw]
  · have hw := bounded_wait_all_set ro.msr_not_idle I2C_TIMEOUT_COUNT hpos 0
      (fun j hj => by simpa using hall j hj)
    rw [read_internal_idle_timeout ro slave length fuel (by rw [hw]), hw]
  · simp only [I2C_mstr_send_internal, if_neg hty]
    rfl
  · simp only [I2C_mstr_read_internal, if_neg hty]
    rfl

/-- Witness for C4 at a concrete never-idle bus and, for the
independence parts, at the Start policy. -/
theorem C4_idle_wait_iff_normal_witness :
    I2C_mstr_send_internal send_oracle_never_idle 5 [0] 1
        i2c_burst_type_t.I2C_NORMAL 1
      = some (I2C_ERR_TIMEOUT,
          List.replicate (I2C_TIMEOUT_COUNT - 1) (HwEvent.delay_usec 10))
    ∧ I2C_mstr_read_internal read_oracle_never_idle 5 1
        i2c_burst_type_t.I2C_NORMAL 1
      = some (I2C_ERR_TIMEOUT,
          List.replicate (I2C_TIMEOUT_COUNT - 1) (HwEvent.delay_usec 10), [])
    ∧ I2C_mstr_send_internal
        { send_oracle_never_idle with msr_not_idle := fun _ => false } 5 [0] 1
        i2c_burst_type_t.I2C_START 1
      = I2C_mstr_send_internal send_oracle_never_idle 5 [0] 1
          i2c_burst_type_t.I2C_START 1
    ∧ I2C_mstr_read_internal
        { read_oracle_never_idle with msr_not_idle := fun _ => false } 5 1
        i2c_burst_type_t.I2C_START 1
      = I2C_mstr_read_internal read_oracle_never_idle 5 1
          i2c_burst_type_t.I2C_START 1 := by
  have h := C4_idle_wait_iff_normal send_oracle_never_idle read_oracle_never_idle
    5 [0] 1 1
  exact ⟨h.2.1 (fun j hj => rfl), h.2.2.1 (fun j hj => rfl),
    h.2.2.2.1 (fun _ => false) i2c_burst_type_t.I2C_START (by decide),
    h.2.2.2.2 (fun _ => false) i2c_burst_type_t.I2C_START (by decide)⟩
/-- C2 counterexample: with a full TX queue (and even with the
arbitration-lost flag set), the send engine does NOT proceed with the
burst: the run ends right after the flush and the fill, with no slave
address programmed, no control word written, no busy wait and no status
inspection, returning `I2C_FIFO_LOAD_ERROR` unconditionally. -/
theorem C2_counterexample :
    I2C_mstr_send_internal send_oracle_fifo_full 5 [7] 1
        i2c_burst_type_t.I2C_NORMAL 1
      = some (I2C_FIFO_LOAD_ERROR,
          [HwEvent.mfifoctl_set_txflush, HwEvent.mfifoctl_clear_txflush,
           HwEvent.write_mtxdata 7])
    ∧ send_oracle_fifo_full.msr_arblst = true := by
  constructor
  · decide
  · rfl

/-- C2 amended: in every send call in which loading the transmit queue
detects a full queue, the engine skips the burst block entirely: it
returns `I2C_FIFO_LOAD_ERROR` regardless of the status flags, and its
trace contains no slave-address write and no control-word write. -/
theorem C2_fifo_error_skips_burst (o : SendOracle) (slave : Nat) (data : List Nat)
    (length : Nat) (i2c_type : i2c_burst_type_t) (fuel : Nat)
    (hidle : i2c_type = i2c_burst_type_t.I2C_NORMAL →
      (bounded_wait o.msr_not_idle I2C_TIMEOUT_COUNT 0).1 ≠ none)
    (hflush : unbounded_wait o.tx_flush_not_empty fuel 0 ≠ none)
    (hfill : (I2C_fill_tx_fifo o.tx_free data length).1 = 0) :
    ∃ tr, I2C_mstr_send_internal o slave data length i2c_type fuel
        = some (I2C_FIFO_LOAD_ERROR, tr)
      ∧ (∀ s d, HwEvent.write_msa s d ∉ tr)
      ∧ (∀ v, HwEvent.write_mctr v ∉ tr) := by
  rw [send_internal_eq_fill_phase o slave data length i2c_type fuel hidle,
    send_fill_phase_fifo_error o slave data length i2c_type fuel _ hflush hfill]
  refine ⟨_, rfl, ?_, ?_⟩
  · intro s d
    simp [List.mem_append, List.mem_replicate, I2C_fill_tx_fifo_snd]
  · intro v
    simp [List.mem_append, List.mem_replicate, I2C_fill_tx_fifo_snd]

/-- Witness for the amended C2 at the concrete full-queue bus. -/
theorem C2_fifo_error_skips_burst_witness :
    ∃ tr, I2C_mstr_send_internal send_oracle_fifo_full 5 [7] 1
        i2c_burst_type_t.I2C_NORMAL 1
      = some (I2C_FIFO_LOAD_ERROR, tr)
      ∧ (∀ s d, HwEvent.write_msa s d ∉ tr)
      ∧ (∀ v, HwEvent.write_mctr v ∉ tr) :=
  C2_fifo_error_skips_burst send_oracle_fifo_full 5 [7] 1
    i2c_burst_type_t.I2C_NORMAL 1
    (fun _ => by decide) (by decide) (by decide)
/-- Status of a completed send past the idle wait with a successful FIFO
load: either the bounded busy wait expired (timeout), or the status
flags were classified with arbitration-lost over no-ack over success. -/
theorem send_fill_phase_status (o : SendOracle) (slave : Nat) (data : List Nat)
    (length : Nat) (i2c_type : i2c_burst_type_t) (fuel : Nat) (tr0 : List HwEvent)
    (st : Nat) (tr : List HwEvent)
    (hfill : (I2C_fill_tx_fifo o.tx_free data length).1 ≠ 0)
    (h : send_fill_phase o slave data length i2c_type fuel I2C_SUCCESS tr0
          = some (st, tr)) :
    (st = I2C_ERR_TIMEOUT
      ∧ (bounded_wait o.msr_busy I2C_TIMEOUT_COUNT 0).1 = none)
    ∨ (st = (if o.msr_arblst then I2C_ERR_ARB_LOST
             else if o.msr_err then I2C_ERR_NACK
             else I2C_SUCCESS)
        ∧ (bounded_wait o.msr_busy I2C_TIMEOUT_COUNT 0).1 ≠ none) := by
  rcases hb : (bounded_wait o.msr_busy I2C_TIMEOUT_COUNT 0).1 with _ | jb
  · rw [send_fill_phase_busy_timeout o slave data length i2c_type fuel tr0 ?hfl hfill hb]
      at h
    · left
      refine ⟨?_, rfl⟩
      injection h with hh
      exact (congrArg Prod.fst hh).symm
    · intro hn
      unfold send_fill_phase at h
      rw [hn] at h
      simp at h
  · have hbne : (bounded_wait o.msr_busy I2C_TIMEOUT_COUNT 0).1 ≠ none := by
      rw [hb]; simp
    have hfl : unbounded_wait o.tx_flush_not_empty fuel 0 ≠ none := by
      intro hn
      unfold send_fill_phase at h
      rw [hn] at h
      simp at h
    rw [send_fill_phase_classify o slave data length i2c_type fuel tr0 hfl hfill hbne]
      at h
    right
    refine ⟨?_, by simp⟩
    injection h with hh
    exact (congrArg Prod.fst hh).symm
/-- C3 counterexample: a Start-policy send (which performs no idle wait
at all) returns `I2C_ERR_TIMEOUT` when the busy flag never clears after
the burst trigger — so `ErrTimeout` is NOT returned only from the
pre-transaction idle wait: the send engine's post-trigger completion
wait is itself time-bounded. -/
theorem C3_counterexample :
    (I2C_mstr_send_internal send_oracle_busy_forever 5 [7] 1
        i2c_burst_type_t.I2C_START 1).map Prod.fst
      = some I2C_ERR_TIMEOUT := by
  rw [send_internal_eq_fill_phase send_oracle_busy_forever 5 [7] 1
    i2c_burst_type_t.I2C_START 1 (fun h => absurd h (by decide))]
  have hbusy : (bounded_wait send_oracle_busy_forever.msr_busy
      I2C_TIMEOUT_COUNT 0).1 = none := by
    rw [bounded_wait_all_set send_oracle_busy_forever.msr_busy I2C_TIMEOUT_COUNT
      (by norm_num [I2C_TIMEOUT_COUNT]) 0 (fun j hj => rfl)]
  rw [send_fill_phase_busy_timeout send_oracle_busy_forever 5 [7] 1
    i2c_burst_type_t.I2C_START 1 _ (by decide) (by decide) hbusy]
  simp

/-- C3 amended: the waits are asymmetric between the two engines.  In
the send engine the post-trigger completion wait is bounded by the same
`I2C_TIMEOUT_COUNT` budget, so `I2C_ERR_TIMEOUT` can also be returned
after a burst is triggered (first conjunct).  Only in the receive engine
is the post-trigger wait unbounded: a completed receive returns
`I2C_ERR_TIMEOUT` only from the Normal-policy idle wait, with nothing
but the idle-poll delays in its trace (second conjunct). -/
theorem C3_timeout_asymmetry :
    (∀ (o : SendOracle) (slave : Nat) (data : List Nat) (length : Nat)
        (ty : i2c_burst_type_t) (fuel : Nat),
      (ty = i2c_burst_type_t.I2C_NORMAL →
        (bounded_wait o.msr_not_idle I2C_TIMEOUT_COUNT 0).1 ≠ none) →
      unbounded_wait o.tx_flush_not_empty fuel 0 ≠ none →
      (I2C_fill_tx_fifo o.tx_free data length).1 ≠ 0 →
      (∀ j, j < I2C_TIMEOUT_COUNT → o.msr_busy j = true) →
      (I2C_mstr_send_internal o slave data length ty fuel).map Prod.fst
        = some I2C_ERR_TIMEOUT)
    ∧ (∀ (ro : ReadOracle) (slave length : Nat) (ty : i2c_burst_type_t)
        (fuel : Nat) (st : Nat) (tr : List HwEvent) (buf : List Nat),
      I2C_mstr_read_internal ro slave length ty fuel = some (st, tr, buf) →
      st = I2C_ERR_TIMEOUT →
      ty = i2c_burst_type_t.I2C_NORMAL
        ∧ tr = List.replicate (I2C_TIMEOUT_COUNT - 1) (HwEvent.delay_usec 10)
        ∧ buf = []) := by
  constructor
  · intro o slave data length ty fuel hidle hflush hfill hbusy
    have hb : (bounded_wait o.msr_busy I2C_TIMEOUT_COUNT 0).1 = none := by
      rw [bounded_wait_all_set o.msr_busy I2C_TIMEOUT_COUNT
        (by norm_num [I2C_TIMEOUT_COUNT]) 0 (fun j hj => by simpa using hbusy j hj)]
    rw [send_internal_eq_fill_phase o slave data length ty fuel hidle,
      send_fill_phase_busy_timeout o slave data length ty fuel _ hflush hfill hb]
    simp
  · intro ro slave length ty fuel st tr buf h hst
    by_cases hty : ty = i2c_burst_type_t.I2C_NORMAL
    · subst hty
      rcases hw : (bounded_wait ro.msr_not_idle I2C_TIMEOUT_COUNT 0).1 with _ | j
      · rw [read_internal_idle_timeout ro slave length fuel hw] at h
        have hall := bounded_wait_none_all_set ro.msr_not_idle I2C_TIMEOUT_COUNT 0 hw
        have hw2 := bounded_wait_all_set ro.msr_not_idle I2C_TIMEOUT_COUNT
          (by norm_num [I2C_TIMEOUT_COUNT]) 0 (fun j hj => hall j hj)
        simp only [Option.some.injEq, Prod.mk.injEq] at h
        obtain ⟨-, h2, rfl⟩ := h
        refine ⟨rfl, ?_, rfl⟩
        rw [← h2, hw2]
      · have hni : (bounded_wait ro.msr_not_idle I2C_TIMEOUT_COUNT 0).1 ≠ none := by
          rw [hw]; simp
        rw [read_internal_eq_flush_phase ro slave length
          i2c_burst_type_t.I2C_NORMAL fuel (fun _ => hni)] at h
        have hspec := read_flush_phase_spec ro slave length
          i2c_burst_type_t.I2C_NORMAL fuel _ st tr buf h
        exact absurd (hst ▸ hspec.1) (Ne.symm (classify_ne_timeout _ _))
    · rw [read_internal_eq_flush_phase ro slave length ty fuel
        (fun h2 => absurd h2 hty)] at h
      have hspec := read_flush_phase_spec ro slave length ty fuel _ st tr buf h
      exact absurd (hst ▸ hspec.1) (Ne.symm (classify_ne_timeout _ _))

/-- Witness for the amended C3: a concrete busy-forever send bus and a
concrete never-idle receive bus. -/
theorem C3_timeout_asymmetry_witness :
    (I2C_mstr_send_internal send_oracle_busy_forever 5 [7] 1
        i2c_burst_type_t.I2C_NORMAL 1).map Prod.fst
      = some I2C_ERR_TIMEOUT
    ∧ (i2c_burst_type_t.I2C_NORMAL = i2c_burst_type_t.I2C_NORMAL
        ∧ List.replicate (I2C_TIMEOUT_COUNT - 1) (HwEvent.delay_usec 10)
            = List.replicate (I2C_TIMEOUT_COUNT - 1) (HwEvent.delay_usec 10)
        ∧ ([] : List Nat) = []) := by
  have hw := bounded_wait_all_set read_oracle_never_idle.msr_not_idle
    I2C_TIMEOUT_COUNT (by norm_num [I2C_TIMEOUT_COUNT]) 0 (fun j hj => rfl)
  have hrun := read_internal_idle_timeout read_oracle_never_idle 5 1 1 (by rw [hw])
  rw [hw] at hrun
  exact ⟨C3_timeout_asymmetry.1 send_oracle_busy_forever 5 [7] 1
      i2c_burst_type_t.I2C_NORMAL 1 (fun _ => by decide) (by decide) (by decide)
      (fun j hj => rfl),
    C3_timeout_asymmetry.2 read_oracle_never_idle 5 1
      i2c_burst_type_t.I2C_NORMAL 1 I2C_ERR_TIMEOUT
      (List.replicate (I2C_TIMEOUT_COUNT - 1) (HwEvent.delay_usec 10)) [] hrun rfl⟩
/-- C5: in both engines the status classification after the completion
wait gives arbitration-lost priority over the generic error/no-ack flag,
which has priority over success: every completed burst that did not time
out returns exactly `if arblst then ErrArbitrationLost else if err then
ErrNotAcknowledged else Success` — in particular, with both flags set
the result is `I2C_ERR_ARB_LOST`. -/
theorem C5_error_priority :
    (∀ (o : SendOracle) (slave : Nat) (data : List Nat) (length : Nat)
        (ty : i2c_burst_type_t) (fuel : Nat) (st : Nat),
      (I2C_mstr_send_internal o slave data length ty fuel).map Prod.fst = some st →
      (I2C_fill_tx_fifo o.tx_free data length).1 ≠ 0 →
      st ≠ I2C_ERR_TIMEOUT →
      st = (if o.msr_arblst then I2C_ERR_ARB_LOST
            else if o.msr_err then I2C_ERR_NACK
            else I2C_SUCCESS))
    ∧ (∀ (ro : ReadOracle) (slave length : Nat) (ty : i2c_burst_type_t)
        (fuel : Nat) (st : Nat),
      (I2C_mstr_read_internal ro slave length ty fuel).map (fun r => r.1) = some st →
      st ≠ I2C_ERR_TIMEOUT →
      st = (if ro.msr_arblst then I2C_ERR_ARB_LOST
            else if ro.msr_err then I2C_ERR_NACK
            else I2C_SUCCESS)) := by
  constructor
  · intro o slave data length ty fuel st h hfill hst
    obtain ⟨⟨st0, tr⟩, hrun, heq⟩ := Option.map_eq_some'.mp h
    rcases heq
    by_cases hty : ty = i2c_burst_type_t.I2C_NORMAL
    · subst hty
      rcases hw : (bounded_wait o.msr_not_idle I2C_TIMEOUT_COUNT 0).1 with _ | j
      · rw [send_internal_idle_timeout o slave data length fuel hw] at hrun
        simp only [Option.some.injEq, Prod.mk.injEq] at hrun
        exact absurd hrun.1.symm hst
      · have hni : (bounded_wait o.msr_not_idle I2C_TIMEOUT_COUNT 0).1 ≠ none := by
          rw [hw]; simp
        rw [send_internal_eq_fill_phase o slave data length
          i2c_burst_type_t.I2C_NORMAL fuel (fun _ => hni)] at hrun
        rcases send_fill_phase_status o slave data length
            i2c_burst_type_t.I2C_NORMAL fuel _ _ _ hfill hrun with ⟨h1, -⟩ | ⟨h1, -⟩
        · exact absurd h1 hst
        · exact h1
    · rw [send_internal_eq_fill_phase o slave data length ty fuel
        (fun h2 => absurd h2 hty)] at hrun
      rcases send_fill_phase_status o slave data length ty fuel _ _ _ hfill hrun
        with ⟨h1, -⟩ | ⟨h1, -⟩
      · exact absurd h1 hst
      · exact h1
  · intro ro slave length ty fuel st h hst
    obtain ⟨⟨st0, tr, buf⟩, hrun, heq⟩ := Option.map_eq_some'.mp h
    rcases heq
    by_cases hty : ty = i2c_burst_type_t.I2C_NORMAL
    · subst hty
      rcases hw : (bounded_wait ro.msr_not_idle I2C_TIMEOUT_COUNT 0).1 with _ | j
      · rw [read_internal_idle_timeout ro slave length fuel hw] at hrun
        simp only [Option.some.injEq, Prod.mk.injEq] at hrun
        exact absurd hrun.1.symm hst
      · have hni : (bounded_wait ro.msr_not_idle I2C_TIMEOUT_COUNT 0).1 ≠ none := by
          rw [hw]; simp
        rw [read_internal_eq_flush_phase ro slave length
          i2c_burst_type_t.I2C_NORMAL fuel (fun _ => hni)] at hrun
        exact (read_flush_phase_spec ro slave length
          i2c_burst_type_t.I2C_NORMAL fuel _ _ _ _ hrun).1
    · rw [read_internal_eq_flush_phase ro slave length ty fuel
        (fun h2 => absurd h2 hty)] at hrun
      exact (read_flush_phase_spec ro slave length ty fuel _ _ _ _ hrun).1

/-- Witness for C5: with both the arbitration-lost and the error/no-ack
flag set on concrete cooperative buses, both engines classify the result
as `I2C_ERR_ARB_LOST`. -/
theorem C5_error_priority_witness :
    I2C_ERR_ARB_LOST
        = (if send_oracle_both_flags.msr_arblst then I2C_ERR_ARB_LOST
           else if send_oracle_both_flags.msr_err then I2C_ERR_NACK
           else I2C_SUCCESS)
    ∧ I2C_ERR_ARB_LOST
        = (if read_oracle_both_flags.msr_arblst then I2C_ERR_ARB_LOST
           else if read_oracle_both_flags.msr_err then I2C_ERR_NACK
           else I2C_SUCCESS) :=
  ⟨C5_error_priority.1 send_oracle_both_flags 5 [7] 1 i2c_burst_type_t.I2C_END 1
      I2C_ERR_ARB_LOST (by decide) (by decide) (by decide),
    C5_error_priority.2 read_oracle_both_flags 5 1 i2c_burst_type_t.I2C_END 1
      I2C_ERR_ARB_LOST (by decide) (by decide)⟩
/-- C6: the queue-load routine reports failure exactly when the queue
reported full (zero free entries) before some byte was written, yet
still writes every requested byte to the queue data register (first
conjunct; `count ≤ 255` is the `uint8_t` regime of every call site).
Consequently a 9-byte Normal send against a queue flushed empty
beforehand — whose free count therefore reads `8 - i` at fill iteration
`i` — returns `I2C_FIFO_LOAD_ERROR` (second conjunct). -/
theorem C6_fifo_overflow :
    (∀ (f : Nat → Nat) (b : List Nat) (n : Nat), n ≤ 255 →
      ((I2C_fill_tx_fifo f b n).1 = 0 ↔ ∃ j, j < n ∧ f j = 0)
      ∧ (I2C_fill_tx_fifo f b n).2
          = (List.range n).map (fun j => HwEvent.write_mtxdata (b.getD j 0)))
    ∧ (∀ (o : SendOracle) (slave : Nat) (data : List Nat) (fuel : Nat),
      (∀ i, o.tx_free i = 8 - i) →
      (bounded_wait o.msr_not_idle I2C_TIMEOUT_COUNT 0).1 ≠ none →
      unbounded_wait o.tx_flush_not_empty fuel 0 ≠ none →
      (I2C_mstr_send o slave data 9 fuel).map Prod.fst
        = some I2C_FIFO_LOAD_ERROR) := by
  constructor
  · intro f b n _hn
    exact ⟨I2C_fill_tx_fifo_fst_eq_zero_iff f b n, I2C_fill_tx_fifo_snd f b n⟩
  · intro o slave data fuel hfree hidle hflush
    have hfill : (I2C_fill_tx_fifo o.tx_free data 9).1 = 0 := by
      rw [I2C_fill_tx_fifo_fst_eq_zero_iff]
      exact ⟨8, by omega, by rw [hfree 8]⟩
    rw [I2C_mstr_send,
      send_internal_eq_fill_phase o slave data 9
        i2c_burst_type_t.I2C_NORMAL fuel (fun _ => hidle),
      send_fill_phase_fifo_error o slave data 9
        i2c_burst_type_t.I2C_NORMAL fuel _ hflush hfill]
    simp

/-- Witness for C6: the concrete flushed-queue bus with a 9-byte
request. -/
theorem C6_fifo_overflow_witness :
    ((I2C_fill_tx_fifo (fun i => 8 - i) [1, 2, 3, 4, 5, 6, 7, 8, 9] 9).1 = 0
      ↔ ∃ j, j < 9 ∧ (fun i => 8 - i) j = 0)
    ∧ (I2C_mstr_send send_oracle_flushed_queue 5 [1, 2, 3, 4, 5, 6, 7, 8, 9] 9 1).map
        Prod.fst = some I2C_FIFO_LOAD_ERROR :=
  ⟨(C6_fifo_overflow.1 (fun i => 8 - i) [1, 2, 3, 4, 5, 6, 7, 8, 9] 9 (by omega)).1,
    C6_fifo_overflow.2 send_oracle_flushed_queue 5 [1, 2, 3, 4, 5, 6, 7, 8, 9] 1
      (fun i => rfl) (by decide) (by decide)⟩
/-- C7: in every successful receive, the engine saw the receive-queue
occupancy reach `length` before draining; the buffer receives exactly
the masked data-register readings in order; and the drain suffix of the
trace is, for each byte, the store immediately followed by the fixed
30-microsecond settle delay before the next data-register read. -/
theorem C7_receive_drain (o : ReadOracle) (slave length : Nat)
    (ty : i2c_burst_type_t) (fuel : Nat) (st : Nat) (tr : List HwEvent)
    (buf : List Nat)
    (h : I2C_mstr_read_internal o slave length ty fuel = some (st, tr, buf))
    (hst : st = I2C_SUCCESS) :
    (∃ j, length ≤ o.rx_cnt j)
    ∧ buf = (List.range length).map (fun i => o.rx_data i % 256)
    ∧ ∃ tr0, tr = tr0 ++ ((List.range length).map (fun i =>
        [HwEvent.buf_store i (o.rx_data i % 256),
         HwEvent.delay_usec 30])).flatten := by
  have hdrain1 : (read_drain o.rx_data length).1
      = (List.range length).map (fun i => o.rx_data i % 256) := by
    simp [read_drain, read_drain_aux_fst]
  have hdrain2 : (read_drain o.rx_data length).2
      = ((List.range length).map (fun i =>
          [HwEvent.buf_store i (o.rx_data i % 256),
           HwEvent.delay_usec 30])).flatten := by
    simp [read_drain, read_drain_aux_snd]
  by_cases hty : ty = i2c_burst_type_t.I2C_NORMAL
  · subst hty
    rcases hw : (bounded_wait o.msr_not_idle I2C_TIMEOUT_COUNT 0).1 with _ | j
    · rw [read_internal_idle_timeout o slave length fuel hw] at h
      simp only [Option.some.injEq, Prod.mk.injEq] at h
      rw [← h.1] at hst
      exact absurd hst (by simp [I2C_ERR_TIMEOUT, I2C_SUCCESS])
    · have hni : (bounded_wait o.msr_not_idle I2C_TIMEOUT_COUNT 0).1 ≠ none := by
        rw [hw]; simp
      rw [read_internal_eq_flush_phase o slave length
        i2c_burst_type_t.I2C_NORMAL fuel (fun _ => hni)] at h
      have hspec := read_flush_phase_spec o slave length
        i2c_burst_type_t.I2C_NORMAL fuel _ st tr buf h
      obtain ⟨hbuf, htr⟩ := hspec.2.2.1 hst
      exact ⟨hspec.2.1, hdrain1 ▸ hbuf, ⟨_, hdrain2 ▸ htr⟩⟩
  · rw [read_internal_eq_flush_phase o slave length ty fuel
      (fun h2 => absurd h2 hty)] at h
    have hspec := read_flush_phase_spec o slave length ty fuel _ st tr buf h
    obtain ⟨hbuf, htr⟩ := hspec.2.2.1 hst
    exact ⟨hspec.2.1, hdrain1 ▸ hbuf, ⟨_, hdrain2 ▸ htr⟩⟩

/-- Witness for C7: a concrete cooperative 2-byte receive. -/
theorem C7_receive_drain_witness :
    (∃ j, 2 ≤ read_oracle_ok.rx_cnt j)
    ∧ [65, 66] = (List.range 2).map (fun i => read_oracle_ok.rx_data i % 256)
    ∧ ∃ tr0, [HwEvent.mfifoctl_set_rxflush, HwEvent.mfifoctl_clear_rxflush,
          HwEvent.write_msa 5 false, HwEvent.write_mctr ⟨true, true, true, true, 2⟩,
          HwEvent.buf_store 0 65, HwEvent.delay_usec 30,
          HwEvent.buf_store 1 66, HwEvent.delay_usec 30]
        = tr0 ++ ((List.range 2).map (fun i =>
            [HwEvent.buf_store i (read_oracle_ok.rx_data i % 256),
             HwEvent.delay_usec 30])).flatten :=
  C7_receive_drain read_oracle_ok 5 2 i2c_burst_type_t.I2C_NORMAL 1 I2C_SUCCESS
    [HwEvent.mfifoctl_set_rxflush, HwEvent.mfifoctl_clear_rxflush,
     HwEvent.write_msa 5 false, HwEvent.write_mctr ⟨true, true, true, true, 2⟩,
     HwEvent.buf_store 0 65, HwEvent.delay_usec 30,
     HwEvent.buf_store 1 66, HwEvent.delay_usec 30]
    [65, 66] (by decide) rfl

/-- C9: when a receive completes with any status other than success, the
caller's buffer is never written: the returned byte list is empty and
the trace contains no buffer store at all. -/
theorem C9_no_buffer_write_on_error (o : ReadOracle) (slave length : Nat)
    (ty : i2c_burst_type_t) (fuel : Nat) (st : Nat) (tr : List HwEvent)
    (buf : List Nat)
    (h : I2C_mstr_read_internal o slave length ty fuel = some (st, tr, buf))
    (hst : st ≠ I2C_SUCCESS) :
    buf = [] ∧ ∀ i b, HwEvent.buf_store i b ∉ tr := by
  by_cases hty : ty = i2c_burst_type_t.I2C_NORMAL
  · subst hty
    rcases hw : (bounded_wait o.msr_not_idle I2C_TIMEOUT_COUNT 0).1 with _ | j
    · rw [read_internal_idle_timeout o slave length fuel hw] at h
      simp only [Option.some.injEq, Prod.mk.injEq] at h
      obtain ⟨-, rfl, rfl⟩ := h
      exact ⟨rfl, fun i b => by simp [List.mem_replicate]⟩
    · have hni : (bounded_wait o.msr_not_idle I2C_TIMEOUT_COUNT 0).1 ≠ none := by
        rw [hw]; simp
      rw [read_internal_eq_flush_phase o slave length
        i2c_burst_type_t.I2C_NORMAL fuel (fun _ => hni)] at h
      obtain ⟨hbuf, htr⟩ := (read_flush_phase_spec o slave length
        i2c_burst_type_t.I2C_NORMAL fuel _ st tr buf h).2.2.2 hst
      subst htr
      exact ⟨hbuf, fun i b => by simp [List.mem_append, List.mem_replicate]⟩
  · rw [read_internal_eq_flush_phase o slave length ty fuel
      (fun h2 => absurd h2 hty)] at h
    obtain ⟨hbuf, htr⟩ := (read_flush_phase_spec o slave length ty fuel
      _ st tr buf h).2.2.2 hst
    subst htr
    refine ⟨hbuf, fun i b => ?_⟩
    rw [if_neg hty]
    simp

/-- Witness for C9: a concrete failed receive (arbitration lost). -/
theorem C9_no_buffer_write_on_error_witness :
    ([] : List Nat) = []
    ∧ ∀ i b, HwEvent.buf_store i b ∉
        [HwEvent.mfifoctl_set_rxflush, HwEvent.mfifoctl_clear_rxflush,
         HwEvent.write_msa 5 false,
         HwEvent.write_mctr ⟨true, true, false, true, 2⟩] :=
  C9_no_buffer_write_on_error read_oracle_both_flags 5 2
    i2c_burst_type_t.I2C_START 1 I2C_ERR_ARB_LOST
    [HwEvent.mfifoctl_set_rxflush, HwEvent.mfifoctl_clear_rxflush,
     HwEvent.write_msa 5 false, HwEvent.write_mctr ⟨true, true, false, true, 2⟩]
    [] (by decide) (by decide)

/-- C10: every receive that gets past the idle wait — including runs
whose status flags classified as arbitration-lost or not-acknowledged —
returns only after some occupancy poll saw the receive queue hold at
least `length` bytes: the occupancy wait is not skipped on error. -/
theorem C10_occupancy_wait_on_error (o : ReadOracle) (slave length : Nat)
    (ty : i2c_burst_type_t) (fuel : Nat) (st : Nat) (tr : List HwEvent)
    (buf : List Nat)
    (h : I2C_mstr_read_internal o slave length ty fuel = some (st, tr, buf))
    (hst : st ≠ I2C_ERR_TIMEOUT) :
    ∃ j, length ≤ o.rx_cnt j := by
  by_cases hty : ty = i2c_burst_type_t.I2C_NORMAL
  · subst hty
    rcases hw : (bounded_wait o.msr_not_idle I2C_TIMEOUT_COUNT 0).1 with _ | j
    · rw [read_internal_idle_timeout o slave length fuel hw] at h
      simp only [Option.some.injEq, Prod.mk.injEq] at h
      exact absurd h.1.symm hst
    · have hni : (bounded_wait o.msr_not_idle I2C_TIMEOUT_COUNT 0).1 ≠ none := by
        rw [hw]; simp
      rw [read_internal_eq_flush_phase o slave length
        i2c_burst_type_t.I2C_NORMAL fuel (fun _ => hni)] at h
      exact (read_flush_phase_spec o slave length
        i2c_burst_type_t.I2C_NORMAL fuel _ st tr buf h).2.1
  · rw [read_internal_eq_flush_phase o slave length ty fuel
      (fun h2 => absurd h2 hty)] at h
    exact (read_flush_phase_spec o slave length ty fuel _ st tr buf h).2.1

/-- Witness for C10: a concrete arbitration-lost receive still saw the
occupancy reach the requested length. -/
theorem C10_occupancy_wait_on_error_witness :
    ∃ j, 2 ≤ read_oracle_both_flags.rx_cnt j :=
  C10_occupancy_wait_on_error read_oracle_both_flags 5 2
    i2c_burst_type_t.I2C_START 1 I2C_ERR_ARB_LOST
    [HwEvent.mfifoctl_set_rxflush, HwEvent.mfifoctl_clear_rxflush,
     HwEvent.write_msa 5 false, HwEvent.write_mctr ⟨true, true, false, true, 2⟩]
    [] (by decide) (by decide)
